import Mathlib

/-!
Verification of the Debate Scoring & Decision Engine
(`src/debateAnalyzer.ts` of the debate-referee repository).

The TypeScript code is shallowly embedded:
* strings are Lean `String`s; the JavaScript operations used by the code
  (`toLowerCase`, `split(/\s+/)`, `includes`) are modelled on `List Char`
  with ASCII lowercasing (all scoring keyword lists are ASCII);
* JavaScript numbers are modelled as exact rationals `ℚ` (the idealised
  real-number semantics of the arithmetic the code performs);
* JavaScript objects used as string-keyed score maps are modelled as
  association lists `List (String × _)` in insertion order, with
  assignment overwriting in place, which is the JS insertion-order
  semantics for non-integer-like keys (no claim depends on the JS
  reordering of integer-like keys);
* `JSON.parse` is an external library primitive; the parser is a
  universally quantified parameter `jparse : String → Option JVal`
  producing a modelled JSON value, while the regex JSON-span extraction
  and all validation performed by the repository code are modelled
  faithfully;
* the external judge call (`runtime.generateText`) is a parameter
  `judge : Except String String` — either a thrown error or raw text;
* `Array.prototype.sort` with comparator `(a, b) => b.finalScore -
  a.finalScore` is a stable descending sort by `finalScore`, modelled by
  `List.insertionSort` with the matching total preorder.
-/

namespace DebateRef

/-! ## JavaScript string primitives -/

/-- The characters matched by the regex class `\s` that can occur in the
ASCII range (space, tab, line feed, vertical tab, form feed, carriage
return). -/
def isWSChar (c : Char) : Bool :=
  c == ' ' || c == '\t' || c == '\n' || c == '\x0b' || c == '\x0c' || c == '\r'

/-- State machine for `split(/\s+/)`: `inWS` records whether the
previous character belonged to a whitespace run (so further whitespace
extends the same separator instead of emitting another segment), `acc`
holds the current segment reversed. -/
def splitWSRun : Bool → List Char → List Char → List (List Char)
  | _, [], acc => [acc.reverse]
  | inWS, c :: rest, acc =>
    if isWSChar c then
      if inWS then splitWSRun true rest acc
      else acc.reverse :: splitWSRun true rest []
    else splitWSRun false rest (c :: acc)

/-- JavaScript `str.split(/\s+/)` on a character list: split at every
maximal run of whitespace.  A leading (resp. trailing) run contributes an
empty first (resp. last) segment, and the empty string yields `[[]]`,
exactly as in JavaScript. -/
def splitWS (l : List Char) : List (List Char) :=
  splitWSRun false l []

/-- JavaScript `haystack.includes(needle)` on character lists: `needle`
occurs as a contiguous substring (the empty needle always occurs). -/
def containsSub (needle : List Char) : List Char → Bool
  | [] => needle.isEmpty
  | c :: rest => needle.isPrefixOf (c :: rest) || containsSub needle rest

/-- JavaScript `str.toLowerCase()` restricted to ASCII, as a character
list. -/
def lowerChars (s : String) : List Char :=
  s.toList.map Char.toLower

/-! ## Data model (`debateStore.ts` interfaces) -/

/-- One participant's submission (interface `Argument`). -/
structure Argument where
  id : String
  userId : String
  userName : String
  topic : String
  text : String
  timestamp : Nat
deriving Repr, DecidableEq

/-- A topic plus an ordered sequence of arguments (interface
`DebateSession`).  The optional `processedAt` stamp is owned by the store
and irrelevant to the analyzer. -/
structure DebateSession where
  id : String
  topic : String
  arguments : List Argument
  createdAt : Nat
  processedAt : Option Nat := none
deriving Repr, DecidableEq

/-- One participant's four raw sub-scores plus reasoning (the per-user
record of `AIScoringResponse.scores` / `FallbackScoringData`). -/
structure RawScore where
  clarity : ℚ
  logic : ℚ
  evidence : ℚ
  relevance : ℚ
  reasoning : String
deriving Repr, DecidableEq

/-- Interface `AIScoringResponse`: a score mapping (insertion-ordered
association list) plus a consensus statement. -/
structure AIScoringResponse where
  scores : List (String × RawScore)
  consensusStatement : String
deriving Repr, DecidableEq

/-- One participant's entry of `DebateResult.results`: display-rounded
sub-scores, weighted final score, reasoning. -/
structure ScoredResult where
  userName : String
  clarity : ℚ
  logic : ℚ
  evidence : ℚ
  relevance : ℚ
  finalScore : ℚ
  reasoning : String
deriving Repr, DecidableEq

/-- The nullable `DebateResult.winner` record. -/
structure Winner where
  userId : String
  userName : String
  finalScore : ℚ
deriving Repr, DecidableEq

/-- Return value of `determineWinner`. -/
structure WinnerOutcome where
  winner : Option Winner
  isTie : Bool
deriving Repr, DecidableEq

/-- Interface `DebateResult`. -/
structure DebateResult where
  sessionId : String
  topic : String
  results : List (String × ScoredResult)
  winner : Option Winner
  isTie : Bool
  consensusStatement : String
  processedAt : Nat
deriving Repr, DecidableEq

/-! ## Association-list primitives for JS objects -/

/-- First-match lookup in a string-keyed association list. -/
def lookupKey {α : Type} (k : String) : List (String × α) → Option α
  | [] => none
  | p :: rest => if p.1 = k then some p.2 else lookupKey k rest

/-- JavaScript `obj[k] = v` on an insertion-ordered association list: if
the key is present its value is replaced in place, otherwise the pair is
appended. -/
def objInsert {α : Type} (k : String) (v : α) (l : List (String × α)) :
    List (String × α) :=
  if l.any (fun p => p.1 = k) then
    l.map (fun p => if p.1 = k then (k, v) else p)
  else
    l ++ [(k, v)]

/-! ## Heuristic scorer (`performFallbackAnalysis` and helpers) -/

/-- The fixed evidence-indicator list of `detectEvidence`. -/
def evidenceIndicators : List String :=
  ["according to", "research shows", "studies indicate", "data suggests",
   "statistics show", "evidence shows", "proven", "demonstrated",
   "example", "for instance", "case study", "survey", "poll"]

/-- The fixed structure-indicator list of `detectStructure`. -/
def structureIndicators : List String :=
  ["first", "second", "third", "furthermore", "moreover", "additionally",
   "however", "therefore", "consequently", "in conclusion", "to summarize"]

/-- `detectEvidence`: the lowercased text contains some evidence
indicator as a substring. -/
def detectEvidence (text : String) : Bool :=
  evidenceIndicators.any (fun ind => containsSub ind.toList (lowerChars text))

/-- `detectStructure`: the lowercased text contains some structure
indicator as a substring. -/
def detectStructure (text : String) : Bool :=
  structureIndicators.any (fun ind => containsSub ind.toList (lowerChars text))

/-- `calculateRelevance(text, topic)`: the fraction of lowercase topic
words that contain, or are contained in, some lowercase text word, scaled
by 10, shifted by 5 and clamped to `[5, 10]`. -/
def calculateRelevance (text : String) (topic : String) : ℚ :=
  let topicWords := splitWS (lowerChars topic)
  let textWords := splitWS (lowerChars text)
  let matched := topicWords.filter
    (fun word => textWords.any
      (fun textWord => containsSub word textWord || containsSub textWord word))
  let relevanceRatio : ℚ := (matched.length : ℚ) / (topicWords.length : ℚ)
  min 10 (max 5 (relevanceRatio * 10 + 5))

/-- The loop body of `performFallbackAnalysis`: the `RawScore` computed
for one argument from its word count, indicator hits and topic
relevance. -/
def scoreArgument (topic : String) (a : Argument) : RawScore :=
  let wordCount := (splitWS a.text.toList).length
  let hasEvidence := detectEvidence a.text
  let hasStructure := detectStructure a.text
  { clarity := min 10 (max 5 (if hasStructure then (8 : ℚ) else 6))
    logic := min 10 (max 4 (if wordCount > 50 then (7 : ℚ) else 5))
    evidence := min 10 (max 3 (if hasEvidence then (8 : ℚ) else 4))
    relevance := min 10 (max 6 (calculateRelevance a.text topic))
    reasoning :=
      "Fallback scoring: "
        ++ (if hasStructure then "Well-structured" else "Basic structure")
        ++ ", "
        ++ (if hasEvidence then "Contains evidence" else "Limited evidence")
        ++ ", " ++ toString wordCount ++ " words" }

/-- `performFallbackAnalysis`: score every argument in order, writing into
the `scores` object keyed by `userId`, and emit the fixed-template
consensus statement. -/
def performFallbackAnalysis (session : DebateSession) : AIScoringResponse :=
  { scores :=
      session.arguments.foldl
        (fun acc arg => objInsert arg.userId (scoreArgument session.topic arg) acc)
        []
    consensusStatement :=
      "Fallback analysis: " ++ toString session.arguments.length
        ++ " arguments analyzed using basic heuristics. Results may vary from AI analysis." }

/-! ## JSON model and response validator (`parseAIResponse`) -/

/-- Modelled JSON values, the possible results of `JSON.parse`. -/
inductive JVal where
  | jnull : JVal
  | jbool : Bool → JVal
  | jnum : ℚ → JVal
  | jstr : String → JVal
  | jarr : List JVal → JVal
  | jobj : List (String × JVal) → JVal
deriving Repr

/-- JavaScript truthiness of a possibly-`undefined` value (`none` is
`undefined`). -/
def truthy : Option JVal → Bool
  | none => false
  | some .jnull => false
  | some (.jbool b) => b
  | some (.jnum q) => decide (q ≠ 0)
  | some (.jstr s) => decide (s ≠ "")
  | some (.jarr _) => true
  | some (.jobj _) => true

/-- JavaScript property read `v[k]` on a value that may be `undefined`:
reading a property of `undefined` or `null` throws a `TypeError`; on an
object it is a key lookup; on other values it is `undefined` (string and
array index/`length` exotica are not modelled — the values indexed here
come from `JSON.parse` of an object literal). -/
def jsIndex : Option JVal → String → Except String (Option JVal)
  | none, _ => .error "TypeError: Cannot read properties of undefined"
  | some .jnull, _ => .error "TypeError: Cannot read properties of null"
  | some (.jobj fields), k => .ok (lookupKey k fields)
  | some _, _ => .ok none

/-- The range test on one sub-score field: `typeof x === 'number' && 0 <=
x && x <= 10` (the code checks the negation and throws). -/
def isNumInRange : Option JVal → Bool
  | some (.jnum q) => decide (0 ≤ q ∧ q ≤ 10)
  | _ => false

/-- Property read on a known (truthy) value, total: key lookup on an
object, `undefined` on anything else. -/
def jsProp (v : JVal) (k : String) : Option JVal :=
  match v with
  | .jobj fields => lookupKey k fields
  | _ => none

/-- The per-argument body of the validation loop of `parseAIResponse`
(lines 170–188): read `parsed.scores[userId]` (propagating the
`TypeError` a read on `undefined`/`null` throws), fail on a falsy entry,
then range-check clarity, logic, evidence, relevance in that order. -/
def argCheck (parsed : JVal) (uid : String) : Except String Unit :=
  match jsIndex (some parsed) "scores" with
  | .error e => .error e
  | .ok scoresVal =>
    match jsIndex scoresVal uid with
    | .error e => .error e
    | .ok entry =>
      if !truthy entry then
        .error ("Missing score for user " ++ uid)
      else
        match entry with
        | none => .error ("Missing score for user " ++ uid)
        | some score =>
          if !isNumInRange (jsProp score "clarity") then
            .error ("Invalid clarity score for user " ++ uid)
          else if !isNumInRange (jsProp score "logic") then
            .error ("Invalid logic score for user " ++ uid)
          else if !isNumInRange (jsProp score "evidence") then
            .error ("Invalid evidence score for user " ++ uid)
          else if !isNumInRange (jsProp score "relevance") then
            .error ("Invalid relevance score for user " ++ uid)
          else
            .ok ()

/-- The validation loop of `parseAIResponse`: check every session
argument in order, stopping at the first failure. -/
def validateScores (parsed : JVal) : List Argument → Except String Unit
  | [] => .ok ()
  | arg :: rest =>
    match argCheck parsed arg.userId with
    | .error e => .error e
    | .ok _ => validateScores parsed rest

/-- The prefix of a character list up to and including its last `}`
(`none` when it contains no `}`). -/
def upToLastClose : List Char → Option (List Char)
  | [] => none
  | c :: rest =>
    match upToLastClose rest with
    | some tail => some (c :: tail)
    | none => if c = '\x7d' then some [c] else none

/-- The regex match `response.match(/\{[\s\S]*\}/)`: greedily, the span
from the first `{` to the last `}`, provided some `}` follows the first
`{`. -/
def extractJson : List Char → Option (List Char)
  | [] => none
  | c :: rest =>
    if c = '\x7b' then (upToLastClose rest).map (fun tail => c :: tail)
    else extractJson rest

/-- `parseAIResponse(response, session)`: extract the JSON span (failing
with the no-JSON error when there is none), parse it with the external
`JSON.parse` (the parameter `jparse`; `none` models a parse exception),
validate every session argument's scores, and wrap any failure in the
`Invalid AI response format:` error the catch block rethrows. -/
def parseAIResponse (jparse : String → Option JVal) (response : String)
    (session : DebateSession) : Except String JVal :=
  let inner : Except String JVal :=
    match extractJson response.toList with
    | none => .error "No JSON found in AI response"
    | some span =>
      match jparse (String.mk span) with
      | none => .error "Unexpected token in JSON"
      | some parsed =>
        match validateScores parsed session.arguments with
        | .error e => .error e
        | .ok _ => .ok parsed
  match inner with
  | .error e => .error ("Invalid AI response format: " ++ e)
  | .ok v => .ok v

/-! ## Aggregator (`calculateFinalScores`) -/

/-- JavaScript `Math.round(q * 100) / 100`: round half-up at the second
decimal place (`Math.round` is `⌊x + 1/2⌋` on the reals). -/
def round2 (q : ℚ) : ℚ :=
  ((⌊q * 100 + 1 / 2⌋ : ℤ) : ℚ) / 100

/-- JavaScript `Math.round(q * 10) / 10`: round half-up at the first
decimal place, used for the display sub-scores. -/
def round1 (q : ℚ) : ℚ :=
  ((⌊q * 10 + 1 / 2⌋ : ℤ) : ℚ) / 10

/-- The fixed scoring weights of the analyzer. -/
def weightClarity : ℚ := 0.25
/-- Weight of the logic sub-score. -/
def weightLogic : ℚ := 0.30
/-- Weight of the evidence sub-score. -/
def weightEvidence : ℚ := 0.25
/-- Weight of the relevance sub-score. -/
def weightRelevance : ℚ := 0.20

/-- `calculateFinalScores`: for every entry of the score object, in
order, the weighted final score rounded to two decimals and the display
sub-scores rounded to one decimal; `userName` is left blank for the
caller to fill. -/
def calculateFinalScores (scores : List (String × RawScore)) :
    List (String × ScoredResult) :=
  scores.map (fun p =>
    let finalScore :=
      p.2.clarity * weightClarity + p.2.logic * weightLogic
        + p.2.evidence * weightEvidence + p.2.relevance * weightRelevance
    (p.1,
      { userName := ""
        clarity := round1 p.2.clarity
        logic := round1 p.2.logic
        evidence := round1 p.2.evidence
        relevance := round1 p.2.relevance
        finalScore := round2 finalScore
        reasoning := p.2.reasoning }))

/-! ## Winner resolver (`determineWinner`) -/

/-- The comparator `(a, b) => b.finalScore - a.finalScore` as a total
preorder: `x` may precede `y` when `y.finalScore ≤ x.finalScore`. -/
def byScoreDesc (x y : String × ScoredResult) : Prop :=
  y.2.finalScore ≤ x.2.finalScore

instance : DecidableRel byScoreDesc := fun x y =>
  inferInstanceAs (Decidable (y.2.finalScore ≤ x.2.finalScore))

/-- The stable descending sort `entries.sort((a, b) => b.finalScore -
a.finalScore)` (JavaScript `Array.prototype.sort` is stable; insertion
sort with the same preorder is the stable sort). -/
def sortEntries (l : List (String × ScoredResult)) :
    List (String × ScoredResult) :=
  List.insertionSort byScoreDesc l

/-- `determineWinner`: no entries → no winner, no tie; one entry → that
participant wins; otherwise sort descending by final score and declare a
tie exactly when the top two final scores differ by less than `0.1`. -/
def determineWinner (results : List (String × ScoredResult)) : WinnerOutcome :=
  match results with
  | [] => { winner := none, isTie := false }
  | [(userId, result)] =>
    { winner := some { userId := userId, userName := result.userName,
                       finalScore := result.finalScore }
      isTie := false }
  | _ :: _ :: _ =>
    match sortEntries results with
    | (winnerUserId, winnerResult) :: (_, secondResult) :: _ =>
      let isTie : Bool := decide (|winnerResult.finalScore - secondResult.finalScore| < 0.1)
      { winner :=
          if isTie then none
          else some { userId := winnerUserId, userName := winnerResult.userName,
                      finalScore := winnerResult.finalScore }
        isTie := isTie }
    | _ => { winner := none, isTie := false }

/-! ## Analysis orchestrator (`analyzeDebate`) -/

/-- Numeric field read with a default, used to convert a validated JSON
payload into the `AIScoringResponse` shape (`parsed as
AIScoringResponse`).  For the session's own participants validation
guarantees the field is a number, so the default is unreachable there. -/
def jnumD (v : Option JVal) : ℚ :=
  match v with
  | some (.jnum q) => q
  | _ => 0

/-- String field read with a default, same role as `jnumD`. -/
def jstrD (v : Option JVal) : String :=
  match v with
  | some (.jstr s) => s
  | _ => ""

/-- The TypeScript cast `parsed as AIScoringResponse`: reinterpret the
validated JSON payload in the response shape, entry by entry. -/
def jvalToResponse (parsed : JVal) : AIScoringResponse :=
  let rawFields : List (String × JVal) :=
    match jsProp parsed "scores" with
    | some (.jobj fields) => fields
    | _ => []
  { scores :=
      rawFields.map (fun p =>
          (p.1,
            { clarity := jnumD (jsProp p.2 "clarity")
              logic := jnumD (jsProp p.2 "logic")
              evidence := jnumD (jsProp p.2 "evidence")
              relevance := jnumD (jsProp p.2 "relevance")
              reasoning := jstrD (jsProp p.2 "reasoning") }))
    consensusStatement := jstrD (jsProp parsed "consensusStatement") }

/-- `analyzeDebate(session)`: fail on an empty argument list; otherwise
attempt the external judge (`judge` is the outcome of
`runtime.generateText`), fall back to `performFallbackAnalysis` when the
call or `parseAIResponse` fails, aggregate, resolve the winner, and stamp
`now` (`Date.now()`). -/
def analyzeDebate (judge : Except String String)
    (jparse : String → Option JVal) (now : Nat)
    (session : DebateSession) : Except String DebateResult :=
  if session.arguments.length = 0 then
    .error "Failed to analyze debate: No arguments to analyze"
  else
    let aiResponse : AIScoringResponse :=
      match judge with
      | .error _ => performFallbackAnalysis session
      | .ok text =>
        match parseAIResponse jparse text session with
        | .error _ => performFallbackAnalysis session
        | .ok parsed => jvalToResponse parsed
    let results := calculateFinalScores aiResponse.scores
    let outcome := determineWinner results
    .ok { sessionId := session.id
          topic := session.topic
          results := results
          winner := outcome.winner
          isTie := outcome.isTie
          consensusStatement := aiResponse.consensusStatement
          processedAt := now }

/-! ## Concrete scenario data (spec §8, Scenario A) -/

/-- The Scenario A topic. -/
def scnTopic : String := "Should AI replace human teachers?"

/-- A Scenario A first argument: contains "studies show" and "however"
and has more than 50 whitespace-delimited words, and contains no entry of
`evidenceIndicators`. -/
def scnText1 : String := "Many recent studies show that classrooms using adaptive software deliver stronger results. However, the broader picture is more subtle than headline numbers imply. Teachers bring empathy, judgment, and cultural context that no current system can match. A hybrid model lets software handle drills while teachers guide discussion, mentor pupils, and adapt lessons. Given these observations, schools ought to combine both rather than replace human teachers outright with AI."

/-- A Scenario A second argument: under 50 words, no evidence or
structure markers. -/
def scnText2 : String := "AI cannot care about pupils the way a devoted teacher can."

/-- Scenario A, first participant's argument. -/
def scnArg1 : Argument := ⟨"a1", "u1", "Alice", scnTopic, scnText1, 1⟩

/-- Scenario A, second participant's argument. -/
def scnArg2 : Argument := ⟨"a2", "u2", "Bob", scnTopic, scnText2, 2⟩

/-- The Scenario A session. -/
def scnSession : DebateSession := ⟨"s1", scnTopic, [scnArg1, scnArg2], 0, none⟩

/-! ## Lemmas about the stable descending sort -/

instance : IsTotal (String × ScoredResult) byScoreDesc :=
  ⟨fun a b => le_total b.2.finalScore a.2.finalScore⟩

instance : IsTrans (String × ScoredResult) byScoreDesc :=
  ⟨fun _ _ _ hab hbc => le_trans hbc hab⟩

theorem sortEntries_perm (l : List (String × ScoredResult)) :
    (sortEntries l).Perm l :=
  List.perm_insertionSort byScoreDesc l

theorem sortEntries_sorted (l : List (String × ScoredResult)) :
    List.Sorted byScoreDesc (sortEntries l) :=
  List.sorted_insertionSort byScoreDesc l

/-- C2.  For every results mapping, `determineWinner` returns a null
winner exactly when it declares a tie or the mapping is empty; and on a
one-participant mapping it declares no tie and returns that participant
with that participant's final score. -/
theorem claim_C2 (results : List (String × ScoredResult)) :
    ((determineWinner results).winner = none ↔
      (determineWinner results).isTie = true ∨ results = []) ∧
    (∀ uid r, results = [(uid, r)] →
      (determineWinner results).isTie = false ∧
      (determineWinner results).winner
        = some { userId := uid, userName := r.userName,
                 finalScore := r.finalScore }) := by
  rcases results with _ | ⟨p, _ | ⟨q, t⟩⟩
  · exact ⟨by simp [determineWinner], by intro uid r h; simp at h⟩
  · obtain ⟨uid0, r0⟩ := p
    constructor
    · simp [determineWinner]
    · intro uid r h
      rw [List.cons.injEq, Prod.mk.injEq] at h
      obtain ⟨⟨h1, h2⟩, _⟩ := h
      subst h1; subst h2
      simp [determineWinner]
  · constructor
    · have hlen : (sortEntries (p :: q :: t)).length = (p :: q :: t).length :=
        (sortEntries_perm _).length_eq
      rcases hs : sortEntries (p :: q :: t) with _ | ⟨a, _ | ⟨b, t'⟩⟩
      · rw [hs] at hlen; simp at hlen
      · rw [hs] at hlen; simp at hlen
      · obtain ⟨auid, ar⟩ := a
        obtain ⟨buid, br⟩ := b
        by_cases htie : |ar.finalScore - br.finalScore| < 0.1 <;>
          simp [determineWinner, hs, htie]
    · intro uid r h; simp at h

/-- C5.  With two or more participants, `determineWinner` sorts the
entries descending by final score (the head of the sorted permutation
dominates every entry), declares a tie with no winner exactly when the
top two final scores differ in absolute value by strictly less than 0.1,
and otherwise makes the top-scoring entry the winner. -/
theorem claim_C5 (results : List (String × ScoredResult))
    (h2 : 2 ≤ results.length) :
    ∃ top second rest,
      sortEntries results = top :: second :: rest ∧
      results.Perm (top :: second :: rest) ∧
      List.Sorted byScoreDesc (top :: second :: rest) ∧
      (∀ e ∈ results, e.2.finalScore ≤ top.2.finalScore) ∧
      ((determineWinner results).isTie
        = decide (|top.2.finalScore - second.2.finalScore| < 0.1)) ∧
      ((determineWinner results).winner
        = if |top.2.finalScore - second.2.finalScore| < 0.1 then none
          else some { userId := top.1, userName := top.2.userName,
                      finalScore := top.2.finalScore }) := by
  rcases results with _ | ⟨p, _ | ⟨q, t⟩⟩
  · simp at h2
  · simp at h2
  · have hlen : (sortEntries (p :: q :: t)).length = (p :: q :: t).length :=
      (sortEntries_perm _).length_eq
    rcases hs : sortEntries (p :: q :: t) with _ | ⟨a, _ | ⟨b, t'⟩⟩
    · rw [hs] at hlen; simp at hlen
    · rw [hs] at hlen; simp at hlen
    · have hperm : (p :: q :: t).Perm (a :: b :: t') := by
        rw [← hs]; exact (sortEntries_perm _).symm
      have hsorted : List.Sorted byScoreDesc (a :: b :: t') := by
        rw [← hs]; exact sortEntries_sorted _
      refine ⟨a, b, t', rfl, hperm, hsorted, ?_, ?_, ?_⟩
      · intro e he
        have he' : e ∈ a :: b :: t' := hperm.mem_iff.mp he
        rcases List.mem_cons.mp he' with rfl | he''
        · exact le_refl _
        · exact List.rel_of_sorted_cons hsorted e he''
      · obtain ⟨auid, ar⟩ := a
        obtain ⟨buid, br⟩ := b
        simp [determineWinner, hs]
      · obtain ⟨auid, ar⟩ := a
        obtain ⟨buid, br⟩ := b
        by_cases htie : |ar.finalScore - br.finalScore| < 0.1 <;>
          simp [determineWinner, hs, htie]

/-! ## Lemmas about rounding -/

theorem round2_nonneg {q : ℚ} (h : 0 ≤ q) : 0 ≤ round2 q := by
  unfold round2
  have hfl : (0 : ℤ) ≤ ⌊q * 100 + 1 / 2⌋ := by
    apply Int.le_floor.mpr
    push_cast
    linarith
  have : (0 : ℚ) ≤ ((⌊q * 100 + 1 / 2⌋ : ℤ) : ℚ) := by exact_mod_cast hfl
  linarith

theorem round2_le_ten {q : ℚ} (h : q ≤ 10) : round2 q ≤ 10 := by
  unfold round2
  have hfl : ⌊q * 100 + 1 / 2⌋ < 1001 := by
    apply Int.floor_lt.mpr
    push_cast
    linarith
  have hfl' : ⌊q * 100 + 1 / 2⌋ ≤ 1000 := by omega
  have : ((⌊q * 100 + 1 / 2⌋ : ℤ) : ℚ) ≤ 1000 := by exact_mod_cast hfl'
  rw [div_le_iff₀ (by norm_num : (0 : ℚ) < 100)]
  linarith

/-- C3.  For every entry of a raw-score mapping whose four sub-scores
lie in `[0, 10]`, the aggregator produces a result entry whose
`finalScore` is `round2 (0.25·clarity + 0.30·logic + 0.25·evidence +
0.20·relevance)`, a value that again lies in `[0, 10]`. -/
theorem claim_C3 (scores : List (String × RawScore)) (uid : String)
    (s : RawScore) (hmem : (uid, s) ∈ scores)
    (hc0 : 0 ≤ s.clarity) (hc1 : s.clarity ≤ 10)
    (hl0 : 0 ≤ s.logic) (hl1 : s.logic ≤ 10)
    (he0 : 0 ≤ s.evidence) (he1 : s.evidence ≤ 10)
    (hr0 : 0 ≤ s.relevance) (hr1 : s.relevance ≤ 10) :
    ∃ r : ScoredResult, (uid, r) ∈ calculateFinalScores scores ∧
      r.finalScore = round2 (0.25 * s.clarity + 0.30 * s.logic
        + 0.25 * s.evidence + 0.20 * s.relevance) ∧
      0 ≤ r.finalScore ∧ r.finalScore ≤ 10 := by
  have hw : s.clarity * weightClarity + s.logic * weightLogic
      + s.evidence * weightEvidence + s.relevance * weightRelevance
      = 0.25 * s.clarity + 0.30 * s.logic + 0.25 * s.evidence
        + 0.20 * s.relevance := by
    simp only [weightClarity, weightLogic, weightEvidence, weightRelevance]
    ring
  refine ⟨_, List.mem_map_of_mem _ hmem, ?_, ?_, ?_⟩
  · simpa using congrArg round2 hw
  · apply round2_nonneg
    rw [hw]
    linarith
  · apply round2_le_ten
    rw [hw]
    linarith

/-- Witness for C3 at a concrete raw score (clarity 8, logic 7,
evidence 4, relevance 10). -/
theorem claim_C3_witness :
    ∃ r : ScoredResult,
      ("w1", r) ∈ calculateFinalScores [("w1", ⟨8, 7, 4, 10, "w"⟩)] ∧
      r.finalScore = round2 (0.25 * (8 : ℚ) + 0.30 * 7 + 0.25 * 4
        + 0.20 * 10) ∧
      0 ≤ r.finalScore ∧ r.finalScore ≤ 10 :=
  claim_C3 [("w1", ⟨8, 7, 4, 10, "w"⟩)] "w1" ⟨8, 7, 4, 10, "w"⟩
    (by simp) (by norm_num) (by norm_num) (by norm_num) (by norm_num)
    (by norm_num) (by norm_num) (by norm_num) (by norm_num)

/-! ## Lemmas about the fallback score object -/

theorem objInsert_keys {α : Type} (k : String) (v : α)
    (l : List (String × α)) :
    (objInsert k v l).map Prod.fst =
      if l.any (fun p => p.1 = k) then l.map Prod.fst
      else l.map Prod.fst ++ [k] := by
  unfold objInsert
  split
  · rw [List.map_map]
    apply List.map_congr_left
    intro p _
    by_cases h : p.1 = k <;> simp [h]
  · simp

theorem lookupKey_append_right {α : Type} (k : String)
    (l m : List (String × α)) (h : ∀ p ∈ l, p.1 ≠ k) :
    lookupKey k (l ++ m) = lookupKey k m := by
  induction l with
  | nil => rfl
  | cons q rest ih =>
    have hq : ¬ q.1 = k := h q (List.mem_cons_self q rest)
    simp only [List.cons_append, lookupKey, if_neg hq]
    exact ih (fun p hp => h p (List.mem_cons_of_mem q hp))

theorem lookupKey_map_replace {α : Type} (k : String) (v : α)
    (l : List (String × α))
    (hmem : (l.any fun p => p.1 = k) = true) :
    lookupKey k (l.map fun p => if p.1 = k then (k, v) else p) = some v := by
  induction l with
  | nil => simp at hmem
  | cons q rest ih =>
    by_cases hq : q.1 = k
    · simp [lookupKey, hq]
    · have hmem' : (rest.any fun p => p.1 = k) = true := by
        rcases List.any_eq_true.mp hmem with ⟨p, hp, hpk⟩
        rcases List.mem_cons.mp hp with rfl | hp'
        · exact absurd (of_decide_eq_true hpk) hq
        · exact List.any_eq_true.mpr ⟨p, hp', hpk⟩
      simp only [List.map_cons, if_neg hq, lookupKey]
      exact ih hmem'

theorem objInsert_lookup_self {α : Type} (k : String) (v : α)
    (l : List (String × α)) :
    lookupKey k (objInsert k v l) = some v := by
  unfold objInsert
  split
  case isTrue h => exact lookupKey_map_replace k v l h
  case isFalse h =>
    have hnone : ∀ p ∈ l, p.1 ≠ k := by
      intro p hp hpk
      exact h (List.any_eq_true.mpr ⟨p, hp, by simpa using hpk⟩)
    rw [lookupKey_append_right k l _ hnone]
    simp [lookupKey]

theorem objInsert_lookup_other {α : Type} {k k' : String} (v : α)
    (l : List (String × α)) (hne : k' ≠ k) :
    lookupKey k' (objInsert k v l) = lookupKey k' l := by
  unfold objInsert
  split
  case isTrue h =>
    clear h
    induction l with
    | nil => rfl
    | cons q rest ih =>
      by_cases hq : q.1 = k
      · have hq' : ¬ q.1 = k' := by rw [hq]; exact fun h => hne h.symm
        simp only [List.map_cons, if_pos hq, lookupKey]
        rw [if_neg (fun h => hne h.symm), if_neg hq']
        exact ih
      · simp only [List.map_cons, if_neg hq, lookupKey]
        by_cases hq' : q.1 = k'
        · rw [if_pos hq', if_pos hq']
        · rw [if_neg hq', if_neg hq']
          exact ih
  case isFalse h =>
    clear h
    induction l with
    | nil =>
      simp only [List.nil_append, lookupKey]
      rw [if_neg (fun h => hne h.symm)]
    | cons q rest ih =>
      simp only [List.cons_append, lookupKey]
      by_cases hq' : q.1 = k'
      · rw [if_pos hq', if_pos hq']
      · rw [if_neg hq', if_neg hq']
        exact ih

/-- The score-object fold of `performFallbackAnalysis`, named for the
induction lemmas. -/
def foldScores (topic : String) (args : List Argument)
    (acc : List (String × RawScore)) : List (String × RawScore) :=
  args.foldl (fun acc arg => objInsert arg.userId (scoreArgument topic arg) acc)
    acc

theorem performFallbackAnalysis_scores (session : DebateSession) :
    (performFallbackAnalysis session).scores
      = foldScores session.topic session.arguments [] := rfl

theorem foldScores_mem_keys (topic : String) (args : List Argument) :
    ∀ (acc : List (String × RawScore)) (uid : String),
      uid ∈ (foldScores topic args acc).map Prod.fst ↔
        uid ∈ acc.map Prod.fst ∨ ∃ a ∈ args, a.userId = uid := by
  induction args with
  | nil => intro acc uid; simp [foldScores]
  | cons a rest ih =>
    intro acc uid
    have hstep : foldScores topic (a :: rest) acc
        = foldScores topic rest (objInsert a.userId (scoreArgument topic a) acc) := rfl
    rw [hstep, ih]
    constructor
    · rintro (hacc | hrest)
      · rw [objInsert_keys] at hacc
        split at hacc
        · exact Or.inl hacc
        · rcases List.mem_append.mp hacc with h | h
          · exact Or.inl h
          · simp at h
            exact Or.inr ⟨a, List.mem_cons_self a rest, h.symm⟩
      · obtain ⟨b, hb, hbu⟩ := hrest
        exact Or.inr ⟨b, List.mem_cons_of_mem a hb, hbu⟩
    · rintro (hacc | ⟨b, hb, hbu⟩)
      · left
        rw [objInsert_keys]
        split
        · exact hacc
        · exact List.mem_append.mpr (Or.inl hacc)
      · rcases List.mem_cons.mp hb with rfl | hbrest
        · left
          rw [objInsert_keys]
          split
          case isTrue h =>
            rw [List.any_eq_true] at h
            obtain ⟨p, hp, hpk⟩ := h
            rw [decide_eq_true_eq] at hpk
            rw [← hbu, ← hpk]
            exact List.mem_map_of_mem Prod.fst hp
          case isFalse h =>
            exact List.mem_append.mpr (Or.inr (by simp [hbu]))
        · exact Or.inr ⟨b, hbrest, hbu⟩

theorem foldScores_nodup_keys (topic : String) (args : List Argument) :
    ∀ acc : List (String × RawScore),
      (acc.map Prod.fst).Nodup → ((foldScores topic args acc).map Prod.fst).Nodup := by
  induction args with
  | nil => intro acc h; exact h
  | cons a rest ih =>
    intro acc hacc
    apply ih
    rw [objInsert_keys]
    split
    · exact hacc
    case isFalse h =>
      have hnone : ∀ p ∈ acc, p.1 ≠ a.userId := by
        intro p hp hpk
        exact h (List.any_eq_true.mpr ⟨p, hp, by simpa using hpk⟩)
      rw [List.nodup_append]
      refine ⟨hacc, List.nodup_singleton _, ?_⟩
      intro x hx hx1
      simp only [List.mem_singleton] at hx1
      subst hx1
      rw [List.mem_map] at hx
      obtain ⟨p, hp, hpk⟩ := hx
      exact hnone p hp hpk

/-- C8.  The heuristic scorer's output mapping has pairwise-distinct
keys, and a participant id is a key exactly when it is the `userId` of
some argument of the session. -/
theorem claim_C8 (session : DebateSession) :
    (((performFallbackAnalysis session).scores.map Prod.fst).Nodup) ∧
    (∀ uid : String,
      uid ∈ (performFallbackAnalysis session).scores.map Prod.fst ↔
        ∃ a ∈ session.arguments, a.userId = uid) := by
  rw [performFallbackAnalysis_scores]
  constructor
  · exact foldScores_nodup_keys session.topic session.arguments [] (by simp)
  · intro uid
    rw [foldScores_mem_keys]
    simp

theorem foldScores_lookup (topic : String) (args : List Argument) :
    ∀ (acc : List (String × RawScore)) (uid : String),
      lookupKey uid (foldScores topic args acc)
        = match (args.filter (fun a => a.userId = uid)).getLast? with
          | some a => some (scoreArgument topic a)
          | none => lookupKey uid acc := by
  induction args with
  | nil => intro acc uid; simp [foldScores]
  | cons a rest ih =>
    intro acc uid
    have hstep : foldScores topic (a :: rest) acc
        = foldScores topic rest (objInsert a.userId (scoreArgument topic a) acc) := rfl
    rw [hstep, ih]
    by_cases ha : a.userId = uid
    · rw [List.filter_cons_of_pos (by simp [ha])]
      rcases hflt : rest.filter (fun b => b.userId = uid) with _ | ⟨c, cs⟩
      · rw [hflt]
        simp only [List.getLast?_nil, List.getLast?_singleton]
        rw [← ha, objInsert_lookup_self]
      · rw [hflt, List.getLast?_cons_cons]
        rcases hlast : (c :: cs).getLast? with _ | b
        · rw [List.getLast?_eq_none_iff] at hlast
          exact absurd hlast (by simp)
        · rfl
    · rw [List.filter_cons_of_neg (by simp [ha])]
      rcases hflt : (rest.filter (fun b => b.userId = uid)).getLast? with _ | b
      · rw [hflt]
        exact objInsert_lookup_other _ acc (fun h => ha h.symm)
      · rw [hflt]

/-- C10.  The value the heuristic scorer records for a participant id is
the score of the *last* argument of the session bearing that id (later
arguments overwrite earlier ones); the id is absent exactly when no
argument bears it. -/
theorem claim_C10 (session : DebateSession) (uid : String) :
    lookupKey uid (performFallbackAnalysis session).scores
      = ((session.arguments.filter (fun a => a.userId = uid)).getLast?).map
          (scoreArgument session.topic) := by
  rw [performFallbackAnalysis_scores, foldScores_lookup]
  rcases hflt : (session.arguments.filter (fun a => a.userId = uid)).getLast? with _ | b
  · rw [hflt]; rfl
  · rw [hflt]; rfl

/-! ## Lemmas about relevance scoring -/

theorem splitWSRun_ne_nil (l : List Char) :
    ∀ (inWS : Bool) (acc : List Char), splitWSRun inWS l acc ≠ [] := by
  induction l with
  | nil => intro inWS acc; simp [splitWSRun]
  | cons c rest ih =>
    intro inWS acc
    rw [splitWSRun]
    split
    · split
      · exact ih true acc
      · simp
    · exact ih false (c :: acc)

theorem splitWS_ne_nil (l : List Char) : splitWS l ≠ [] :=
  splitWSRun_ne_nil l false []

theorem containsSub_nil_needle (h : List Char) : containsSub [] h = true := by
  cases h <;> rfl

/-- On the empty text, `split(/\s+/)` yields the single empty word, the
empty word is a substring of every topic word, so the relevance ratio is
1 and `calculateRelevance` returns its ceiling 10 for every topic. -/
theorem calculateRelevance_empty_text (topic : String) :
    calculateRelevance "" topic = 10 := by
  have htext : splitWS (lowerChars "") = [[]] := rfl
  have hpred : ∀ w ∈ splitWS (lowerChars topic),
      ([([] : List Char)].any
        (fun textWord => containsSub w textWord || containsSub textWord w)) = true := by
    intro w _
    simp [containsSub_nil_needle]
  have hlen : ((splitWS (lowerChars topic)).length : ℚ) ≠ 0 := by
    have h1 : (splitWS (lowerChars topic)).length ≠ 0 := by
      intro hcon
      exact splitWS_ne_nil _ (List.length_eq_zero.mp hcon)
    exact_mod_cast h1
  simp only [calculateRelevance, htext]
  rw [List.filter_eq_self.mpr hpred, div_self hlen]
  norm_num

/-- C9 counterexample.  For the concrete session holding one empty-text
argument, the heuristic scorer returns relevance 10 for it — the top of
the clamp range, not the bottom (which is 5 for `calculateRelevance`, 6
after the scorer's own floor). -/
theorem claim_C9_counterexample :
    (scoreArgument "space exploration"
        ⟨"e1", "u9", "Eve", "space exploration", "", 3⟩).relevance = 10 ∧
    ¬ (10 : ℚ) = 5 ∧ ¬ (10 : ℚ) = 6 := by
  refine ⟨?_, by norm_num, by norm_num⟩
  show min 10 (max 6 (calculateRelevance "" "space exploration")) = 10
  rw [calculateRelevance_empty_text]
  norm_num [min_def, max_def]

/-- C9 (amended).  On an argument with empty text the heuristic scorer
does not fail: it returns the base scores clarity 6, logic 5, evidence 4,
and relevance 10 — the top of the relevance clamp range, because the
empty word produced by splitting the empty text is a substring of every
topic word, making the relevance ratio 1. -/
theorem claim_C9_amended (session : DebateSession) (a : Argument)
    (_ha : a ∈ session.arguments) (htext : a.text = "") :
    scoreArgument session.topic a =
      { clarity := 6, logic := 5, evidence := 4, relevance := 10,
        reasoning :=
          "Fallback scoring: Basic structure, Limited evidence, 1 words" } := by
  unfold scoreArgument
  rw [htext]
  have hrel : calculateRelevance "" session.topic = 10 :=
    calculateRelevance_empty_text session.topic
  rw [hrel]
  have h1 : detectStructure "" = false := rfl
  have h2 : detectEvidence "" = false := rfl
  have h3 : (splitWS ("" : String).toList).length = 1 := rfl
  simp only [h1, h2, h3, Bool.false_eq_true, if_false, RawScore.mk.injEq]
  refine ⟨?_, ?_, ?_, ?_, rfl⟩ <;> norm_num [min_def, max_def]

/-- Witness for C9 (amended) at a concrete one-argument session. -/
theorem claim_C9_amended_witness :
    scoreArgument
        (DebateSession.topic ⟨"s9", "space exploration",
          [⟨"e1", "u9", "Eve", "space exploration", "", 3⟩], 0, none⟩)
        ⟨"e1", "u9", "Eve", "space exploration", "", 3⟩ =
      { clarity := 6, logic := 5, evidence := 4, relevance := 10,
        reasoning :=
          "Fallback scoring: Basic structure, Limited evidence, 1 words" } :=
  claim_C9_amended
    ⟨"s9", "space exploration",
      [⟨"e1", "u9", "Eve", "space exploration", "", 3⟩], 0, none⟩
    ⟨"e1", "u9", "Eve", "space exploration", "", 3⟩
    (List.mem_singleton.mpr rfl) rfl

/-- C6 counterexample.  For topic "alpha" and argument text "zzz" no
topic word matches, `calculateRelevance` returns the formula's floor 5,
but the heuristic scorer's relevance for the argument is 6 — the
`Math.max(6, …)` applied by `performFallbackAnalysis` — so the scorer's
relevance is not the `[5, 10]`-clamped formula and can never be 5. -/
theorem relevance_zzz_alpha : calculateRelevance "zzz" "alpha" = 5 := by
  have hm : (List.filter
      (fun word => (splitWS (lowerChars "zzz")).any
        (fun textWord => containsSub word textWord || containsSub textWord word))
      (splitWS (lowerChars "alpha"))).length = 0 := by decide
  have hn : ((splitWS (lowerChars "alpha")).length : ℚ) = 1 := by
    norm_num [show (splitWS (lowerChars "alpha")).length = 1 from rfl]
  simp only [calculateRelevance, hm, hn]
  norm_num [min_def, max_def]

theorem scoreArg_zzz_alpha :
    (scoreArgument "alpha" ⟨"z1", "uz", "Zed", "alpha", "zzz", 4⟩).relevance = 6 := by
  show min 10 (max 6 (calculateRelevance "zzz" "alpha")) = 6
  rw [relevance_zzz_alpha]
  norm_num [min_def, max_def]

theorem claim_C6_counterexample :
    calculateRelevance "zzz" "alpha" = 5 ∧
    (scoreArgument "alpha" ⟨"z1", "uz", "Zed", "alpha", "zzz", 4⟩).relevance = 6 ∧
    ¬ (6 : ℚ) = 5 := by
  refine ⟨relevance_zzz_alpha, scoreArg_zzz_alpha, by norm_num⟩

/-- C6 (amended).  `calculateRelevance` itself equals the spec formula —
match ratio times 10 plus 5, clamped to `[5, 10]` — but the heuristic
scorer's relevance score additionally floors it at 6, so the scorer's
relevance lies in `[6, 10]`; 6 is attained (topic "alpha", text
"zzz"). -/
theorem claim_C6_amended :
    (∀ (topic : String) (a : Argument),
      (scoreArgument topic a).relevance
        = min 10 (max 6 (calculateRelevance a.text topic)) ∧
      6 ≤ (scoreArgument topic a).relevance ∧
      (scoreArgument topic a).relevance ≤ 10 ∧
      calculateRelevance a.text topic
        = min 10 (max 5
            (((((splitWS (lowerChars topic)).filter (fun word =>
                  (splitWS (lowerChars a.text)).any (fun textWord =>
                    containsSub word textWord || containsSub textWord word))).length : ℚ)
                / ((splitWS (lowerChars topic)).length : ℚ)) * 10 + 5)) ∧
      5 ≤ calculateRelevance a.text topic) ∧
    (scoreArgument "alpha" ⟨"z1", "uz", "Zed", "alpha", "zzz", 4⟩).relevance = 6 := by
  constructor
  · intro topic a
    refine ⟨rfl, ?_, ?_, rfl, ?_⟩
    · exact le_min (by norm_num) (le_max_left _ _)
    · exact min_le_left _ _
    · show (5 : ℚ) ≤ min 10 (max 5 _)
      exact le_min (by norm_num) (le_max_left _ _)
  · exact scoreArg_zzz_alpha

/-! ## Concrete evaluation of Scenario A -/

set_option maxRecDepth 40000 in
theorem detectStructure_scnText1 : detectStructure scnText1 = true := by decide

set_option maxRecDepth 40000 in
theorem detectEvidence_scnText1 : detectEvidence scnText1 = false := by decide

set_option maxRecDepth 40000 in
theorem wordCount_scnText1 : (splitWS scnText1.toList).length = 68 := by decide

set_option maxRecDepth 40000 in
theorem detectStructure_scnText2 : detectStructure scnText2 = false := by decide

set_option maxRecDepth 40000 in
theorem detectEvidence_scnText2 : detectEvidence scnText2 = false := by decide

set_option maxRecDepth 40000 in
theorem wordCount_scnText2 : (splitWS scnText2.toList).length = 11 := by decide

set_option maxRecDepth 40000 in
theorem matched_scnText1 :
    (List.filter
      (fun word => (splitWS (lowerChars scnText1)).any
        (fun textWord => containsSub word textWord || containsSub textWord word))
      (splitWS (lowerChars scnTopic))).length = 4 := by decide

set_option maxRecDepth 40000 in
theorem matched_scnText2 :
    (List.filter
      (fun word => (splitWS (lowerChars scnText2)).any
        (fun textWord => containsSub word textWord || containsSub textWord word))
      (splitWS (lowerChars scnTopic))).length = 4 := by decide

theorem relevance_scnText1 : calculateRelevance scnText1 scnTopic = 10 := by
  have hn : ((splitWS (lowerChars scnTopic)).length : ℚ) = 5 := by
    norm_num [show (splitWS (lowerChars scnTopic)).length = 5 from by decide]
  simp only [calculateRelevance, matched_scnText1, hn]
  norm_num [min_def, max_def]

theorem relevance_scnText2 : calculateRelevance scnText2 scnTopic = 10 := by
  have hn : ((splitWS (lowerChars scnTopic)).length : ℚ) = 5 := by
    norm_num [show (splitWS (lowerChars scnTopic)).length = 5 from by decide]
  simp only [calculateRelevance, matched_scnText2, hn]
  norm_num [min_def, max_def]

theorem scoreArg_scn1 :
    scoreArgument scnTopic scnArg1
      = ⟨8, 7, 4, 10,
          "Fallback scoring: Well-structured, Limited evidence, 68 words"⟩ := by
  unfold scoreArgument
  simp only [show scnArg1.text = scnText1 from rfl, detectStructure_scnText1,
    detectEvidence_scnText1, wordCount_scnText1, relevance_scnText1,
    if_true, Bool.false_eq_true, if_false, RawScore.mk.injEq]
  refine ⟨?_, ?_, ?_, ?_, rfl⟩ <;> norm_num [min_def, max_def]

theorem scoreArg_scn2 :
    scoreArgument scnTopic scnArg2
      = ⟨6, 5, 4, 10,
          "Fallback scoring: Basic structure, Limited evidence, 11 words"⟩ := by
  unfold scoreArgument
  simp only [show scnArg2.text = scnText2 from rfl, detectStructure_scnText2,
    detectEvidence_scnText2, wordCount_scnText2, relevance_scnText2,
    Bool.false_eq_true, if_false, RawScore.mk.injEq]
  refine ⟨?_, ?_, ?_, ?_, rfl⟩ <;> norm_num [min_def, max_def]

theorem fallback_scores_scn :
    (performFallbackAnalysis scnSession).scores
      = [("u1", scoreArgument scnTopic scnArg1),
         ("u2", scoreArgument scnTopic scnArg2)] := rfl

/-- Evaluating `determineWinner` on a two-entry mapping already in
descending order with a final-score gap of at least 0.1. -/
theorem determineWinner_pair_notie (u1 u2 : String) (r1 r2 : ScoredResult)
    (hge : r2.finalScore ≤ r1.finalScore)
    (hgap : ¬ |r1.finalScore - r2.finalScore| < 0.1) :
    determineWinner [(u1, r1), (u2, r2)]
      = { winner := some { userId := u1, userName := r1.userName,
                           finalScore := r1.finalScore },
          isTie := false } := by
  have hsort : sortEntries [(u1, r1), (u2, r2)] = [(u1, r1), (u2, r2)] := by
    unfold sortEntries
    simp [List.insertionSort, List.orderedInsert, byScoreDesc, hge]
  simp only [determineWinner, hsort, decide_eq_false hgap]
  simp

/-- C7 counterexample.  The concrete Scenario A first argument contains
"studies show" and "however" and exceeds 50 words, while the second is
short with no markers — yet the heuristic evidence score of the first is
4, not the claimed 8, because "studies show" is not in the
evidence-indicator list. -/
theorem claim_C7_counterexample :
    containsSub "studies show".toList (lowerChars scnText1) = true ∧
    containsSub "however".toList (lowerChars scnText1) = true ∧
    50 < (splitWS scnText1.toList).length ∧
    (splitWS scnText2.toList).length < 50 ∧
    detectEvidence scnText2 = false ∧
    detectStructure scnText2 = false ∧
    (scoreArgument scnTopic scnArg1).evidence = 4 ∧
    ¬ (4 : ℚ) = 8 := by
  refine ⟨?_, ?_, ?_, ?_, detectEvidence_scnText2, detectStructure_scnText2,
    ?_, by norm_num⟩
  · set_option maxRecDepth 40000 in decide
  · set_option maxRecDepth 40000 in decide
  · rw [wordCount_scnText1]; norm_num
  · rw [wordCount_scnText2]; norm_num
  · rw [scoreArg_scn1]

/-- C7 (amended).  On the Scenario A session the heuristic path gives
the first argument clarity 8, logic 7, and evidence 4 — not 8, since
"studies show" is not an evidence marker — and the second argument
clarity 6, logic 5, evidence 4; the first participant's final score 7.1
exceeds the second's 6.0 by at least 0.1, so the first participant is
declared the winner with no tie. -/
theorem claim_C7_amended :
    (scoreArgument scnTopic scnArg1).clarity = 8 ∧
    (scoreArgument scnTopic scnArg1).logic = 7 ∧
    (scoreArgument scnTopic scnArg1).evidence = 4 ∧
    (scoreArgument scnTopic scnArg2).clarity = 6 ∧
    (scoreArgument scnTopic scnArg2).logic = 5 ∧
    (scoreArgument scnTopic scnArg2).evidence = 4 ∧
    ((lookupKey "u1" (calculateFinalScores
        (performFallbackAnalysis scnSession).scores)).map ScoredResult.finalScore
      = some (71 / 10)) ∧
    ((lookupKey "u2" (calculateFinalScores
        (performFallbackAnalysis scnSession).scores)).map ScoredResult.finalScore
      = some 6) ∧
    ((6 : ℚ) + 1 / 10 ≤ 71 / 10) ∧
    determineWinner (calculateFinalScores (performFallbackAnalysis scnSession).scores)
      = { winner := some { userId := "u1", userName := "", finalScore := 71 / 10 },
          isTie := false } := by
  have hf1 : round2 ((8 : ℚ) * weightClarity + 7 * weightLogic
      + 4 * weightEvidence + 10 * weightRelevance) = 71 / 10 := by
    norm_num [round2, weightClarity, weightLogic, weightEvidence, weightRelevance]
  have hf2 : round2 ((6 : ℚ) * weightClarity + 5 * weightLogic
      + 4 * weightEvidence + 10 * weightRelevance) = 6 := by
    norm_num [round2, weightClarity, weightLogic, weightEvidence, weightRelevance]
  have hcf : calculateFinalScores (performFallbackAnalysis scnSession).scores
      = [("u1", { userName := "", clarity := round1 8, logic := round1 7,
                  evidence := round1 4, relevance := round1 10,
                  finalScore := 71 / 10,
                  reasoning :=
                    "Fallback scoring: Well-structured, Limited evidence, 68 words" }),
         ("u2", { userName := "", clarity := round1 6, logic := round1 5,
                  evidence := round1 4, relevance := round1 10,
                  finalScore := 6,
                  reasoning :=
                    "Fallback scoring: Basic structure, Limited evidence, 11 words" })] := by
    rw [fallback_scores_scn, scoreArg_scn1, scoreArg_scn2]
    simp only [calculateFinalScores, List.map_cons, List.map_nil]
    rw [hf1, hf2]
  refine ⟨by rw [scoreArg_scn1], by rw [scoreArg_scn1], by rw [scoreArg_scn1],
    by rw [scoreArg_scn2], by rw [scoreArg_scn2], by rw [scoreArg_scn2],
    ?_, ?_, by norm_num, ?_⟩
  · rw [hcf]; simp [lookupKey]
  · rw [hcf]; simp [lookupKey]
  · rw [hcf]
    apply determineWinner_pair_notie
    · show (6 : ℚ) ≤ 71 / 10
      norm_num
    · show ¬ |(71 : ℚ) / 10 - 6| < 0.1
      rw [show |(71 : ℚ) / 10 - 6| = 11 / 10 from by rw [abs_of_nonneg] <;> norm_num]
      norm_num

/-! ## Validator characterization -/

/-- The claim's wording of per-participant validity, for comparison with
the code's `argCheck`: the participant id is present as a key of the
payload's `scores` object and each of its clarity, logic, evidence and
relevance values is a number in the inclusive range `[0, 10]`. -/
def specArgValid (parsed : JVal) (uid : String) : Bool :=
  match jsProp parsed "scores" with
  | some (.jobj fields) =>
    match lookupKey uid fields with
    | some entry =>
      isNumInRange (jsProp entry "clarity") && isNumInRange (jsProp entry "logic")
        && isNumInRange (jsProp entry "evidence")
        && isNumInRange (jsProp entry "relevance")
    | none => false
  | _ => false

/-- The code's per-argument check succeeds exactly on the participants
the claim calls valid. -/
theorem argCheck_ok_iff (parsed : JVal) (uid : String) :
    argCheck parsed uid = .ok () ↔ specArgValid parsed uid = true := by
  cases parsed with
  | jobj fields =>
    simp only [argCheck, specArgValid, jsIndex, jsProp]
    rcases h : lookupKey "scores" fields with _ | v
    · simp
    · cases v with
      | jobj fs2 =>
        rcases h2 : lookupKey uid fs2 with _ | e
        · simp [h2, truthy]
        · cases e <;>
            simp [h2, truthy, isNumInRange, jsProp] <;>
            first
              | (rename_i q; by_cases hq : q = 0 <;> simp [hq])
              | (rename_i s; by_cases hs : s = "" <;> simp [hs])
              | (rename_i b; cases b <;> simp)
              | (split_ifs <;> simp_all)
      | jnull => simp
      | jbool b => simp [truthy]
      | jnum q => simp [truthy]
      | jstr s => simp [truthy]
      | jarr l => simp [truthy]
  | jnull => simp [argCheck, specArgValid, jsIndex, jsProp]
  | jbool b => simp [argCheck, specArgValid, jsIndex, jsProp]
  | jnum q => simp [argCheck, specArgValid, jsIndex, jsProp]
  | jstr s => simp [argCheck, specArgValid, jsIndex, jsProp]
  | jarr l => simp [argCheck, specArgValid, jsIndex, jsProp]

theorem validateScores_ok_iff (parsed : JVal) (args : List Argument) :
    validateScores parsed args = .ok () ↔
      ∀ a ∈ args, specArgValid parsed a.userId = true := by
  induction args with
  | nil => simp [validateScores]
  | cons a rest ih =>
    simp only [validateScores]
    rcases h : argCheck parsed a.userId with e | u
    · constructor
      · intro hcon; exact absurd hcon (by simp)
      · intro hall
        have := (argCheck_ok_iff parsed a.userId).mpr
          (hall a (List.mem_cons_self a rest))
        rw [h] at this
        exact absurd this (by simp)
    · obtain ⟨⟩ := u
      rw [ih]
      constructor
      · intro hall b hb
        rcases List.mem_cons.mp hb with rfl | hb'
        · exact (argCheck_ok_iff parsed b.userId).mp h
        · exact hall b hb'
      · intro hall b hb
        exact hall b (List.mem_cons_of_mem a hb)

theorem validateScores_error_first (parsed : JVal) (e : String) :
    ∀ (pre post : List Argument) (a : Argument),
      (∀ b ∈ pre, specArgValid parsed b.userId = true) →
      argCheck parsed a.userId = .error e →
      validateScores parsed (pre ++ a :: post) = .error e := by
  intro pre
  induction pre with
  | nil =>
    intro post a _ herr
    simp only [List.nil_append, validateScores, herr]
  | cons b rest ih =>
    intro post a hpre herr
    have hb : argCheck parsed b.userId = .ok () :=
      (argCheck_ok_iff parsed b.userId).mpr (hpre b (List.mem_cons_self b rest))
    simp only [List.cons_append, validateScores, hb]
    exact ih post a (fun c hc => hpre c (List.mem_cons_of_mem b hc)) herr

/-! ## JSON-span extraction characterization -/

theorem upToLastClose_eq_none_iff (l : List Char) :
    upToLastClose l = none ↔ '\x7d' ∉ l := by
  induction l with
  | nil => simp [upToLastClose]
  | cons c rest ih =>
    simp only [upToLastClose]
    rcases h : upToLastClose rest with _ | tail
    · rw [h] at ih
      by_cases hc : c = '\x7d'
      · simp [hc]
      · rw [if_neg hc]
        simp only [List.mem_cons, not_or]
        constructor
        · intro _
          exact ⟨fun hcon => hc hcon.symm, ih.mp rfl⟩
        · intro _
          trivial
    · have : '\x7d' ∈ rest := by
        by_contra hcon
        rw [← ih] at hcon
        rw [h] at hcon
        exact absurd hcon (by simp)
      simp [this]

/-- The regex span exists exactly when the text has a `{` with a `}`
somewhere after it, i.e. when `['{', '}']` is a (not necessarily
contiguous) subsequence of the character list. -/
theorem extractJson_eq_none_iff (cs : List Char) :
    extractJson cs = none ↔ ¬ ['\x7b', '\x7d'].Sublist cs := by
  induction cs with
  | nil =>
    constructor
    · intro _ hcon
      exact absurd (List.sublist_nil.mp hcon) (by simp)
    · intro _; rfl
  | cons c rest ih =>
    simp only [extractJson]
    by_cases hc : c = '\x7b'
    · subst hc
      rw [if_pos rfl]
      have hiff : ['\x7b', '\x7d'].Sublist ('\x7b' :: rest) ↔ '\x7d' ∈ rest := by
        constructor
        · intro hsub
          rcases List.sublist_cons_iff.mp hsub with hs | ⟨l', heq, hs⟩
          · exact hs.subset (by simp)
          · obtain ⟨rfl⟩ : l' = ['\x7d'] := by
              injection heq with _ h2
              exact h2.symm
            exact (List.singleton_sublist.mp hs)
        · intro hmem
          exact List.cons_sublist_cons.mpr (List.singleton_sublist.mpr hmem)
      rw [hiff]
      rcases h : upToLastClose rest with _ | tail
      · rw [upToLastClose_eq_none_iff] at h
        simp [h]
      · have hmem : '\x7d' ∈ rest := by
          by_contra hcon
          rw [← upToLastClose_eq_none_iff] at hcon
          rw [h] at hcon
          exact absurd hcon (by simp)
        simp [hmem]
    · rw [if_neg hc, ih]
      have hiff : ['\x7b', '\x7d'].Sublist (c :: rest) ↔
          ['\x7b', '\x7d'].Sublist rest := by
        constructor
        · intro hsub
          rcases List.sublist_cons_iff.mp hsub with hs | ⟨l', heq, _⟩
          · exact hs
          · exact absurd (by injection heq with h1 _; exact h1.symm) hc
        · intro hsub
          exact hsub.cons c
      rw [hiff]

/-- C4.  For every raw text and session: (1) when the text has no
`{`…`}` span the validator fails with the no-JSON-found error; (2) when a
span is extracted and the external `JSON.parse` yields a payload, the
validator succeeds — returning that payload — exactly when every
participant of the session is valid in the payload (present in `scores`
with all four sub-scores numbers in `[0, 10]`), and otherwise it fails
fast: for the first argument (in session order) that is invalid, the
result is that argument's own check error. -/
theorem claim_C4 (jparse : String → Option JVal) (response : String)
    (session : DebateSession) :
    (¬ ['\x7b', '\x7d'].Sublist response.toList →
      parseAIResponse jparse response session
        = .error "Invalid AI response format: No JSON found in AI response") ∧
    (∀ span parsed, extractJson response.toList = some span →
      jparse (String.mk span) = some parsed →
      ((parseAIResponse jparse response session = .ok parsed ↔
          ∀ a ∈ session.arguments, specArgValid parsed a.userId = true) ∧
       ((∃ v, parseAIResponse jparse response session = .ok v) ↔
          ∀ a ∈ session.arguments, specArgValid parsed a.userId = true) ∧
       (∀ pre a post, session.arguments = pre ++ a :: post →
          (∀ b ∈ pre, specArgValid parsed b.userId = true) →
          specArgValid parsed a.userId = false →
          ∃ e, argCheck parsed a.userId = .error e ∧
            parseAIResponse jparse response session
              = .error ("Invalid AI response format: " ++ e)))) := by
  constructor
  · intro hnospan
    rw [← extractJson_eq_none_iff] at hnospan
    simp only [parseAIResponse, hnospan]
    rfl
  · intro span parsed hspan hparse
    have hred : ∀ r : Except String JVal,
        (match validateScores parsed session.arguments with
          | .error e => (.error e : Except String JVal)
          | .ok _ => .ok parsed) = r →
        parseAIResponse jparse response session
          = match r with
            | .error e => .error ("Invalid AI response format: " ++ e)
            | .ok v => .ok v := by
      intro r hr
      simp only [parseAIResponse, hspan, hparse, hr]
    refine ⟨?_, ?_, ?_⟩
    · rcases hv : validateScores parsed session.arguments with e | u
      · rw [hred (.error e) (by rw [hv])]
        constructor
        · intro hcon; exact absurd hcon (by simp)
        · intro hall
          have := (validateScores_ok_iff parsed session.arguments).mpr hall
          rw [hv] at this
          exact absurd this (by simp)
      · obtain ⟨⟩ := u
        rw [hred (.ok parsed) (by rw [hv])]
        exact ⟨fun _ => (validateScores_ok_iff parsed session.arguments).mp hv,
          fun _ => rfl⟩
    · rcases hv : validateScores parsed session.arguments with e | u
      · rw [hred (.error e) (by rw [hv])]
        constructor
        · rintro ⟨v, hcon⟩; exact absurd hcon (by simp)
        · intro hall
          have := (validateScores_ok_iff parsed session.arguments).mpr hall
          rw [hv] at this
          exact absurd this (by simp)
      · obtain ⟨⟩ := u
        rw [hred (.ok parsed) (by rw [hv])]
        exact ⟨fun _ => (validateScores_ok_iff parsed session.arguments).mp hv,
          fun _ => ⟨parsed, rfl⟩⟩
    · intro pre a post hsplit hpre hbad
      have herr : ∃ e, argCheck parsed a.userId = .error e := by
        rcases hac : argCheck parsed a.userId with e | u
        · exact ⟨e, rfl⟩
        · obtain ⟨⟩ := u
          have := (argCheck_ok_iff parsed a.userId).mp hac
          rw [hbad] at this
          exact absurd this (by simp)
      obtain ⟨e, he⟩ := herr
      refine ⟨e, he, ?_⟩
      have hval : validateScores parsed session.arguments = .error e := by
        rw [hsplit]
        exact validateScores_error_first parsed e pre post a hpre he
      rw [hred (.error e) (by rw [hval])]

/-- Witness for C4: a concrete judge response whose JSON span parses to
a payload scoring both Scenario A participants validly, on which
`parseAIResponse` succeeds and returns the payload. -/
theorem claim_C4_witness :
    parseAIResponse
        (fun _ => some (JVal.jobj
          [("scores", JVal.jobj
            [("u1", JVal.jobj
              [("clarity", JVal.jnum 8), ("logic", JVal.jnum 7),
               ("evidence", JVal.jnum 6), ("relevance", JVal.jnum 9),
               ("reasoning", JVal.jstr "solid")]),
             ("u2", JVal.jobj
              [("clarity", JVal.jnum 5), ("logic", JVal.jnum 5),
               ("evidence", JVal.jnum 4), ("relevance", JVal.jnum 8),
               ("reasoning", JVal.jstr "brief")])]),
           ("consensusStatement", JVal.jstr "Both sides made points.")]))
        "judge says: \x7b\"scores\": …\x7d" scnSession
      = .ok (JVal.jobj
          [("scores", JVal.jobj
            [("u1", JVal.jobj
              [("clarity", JVal.jnum 8), ("logic", JVal.jnum 7),
               ("evidence", JVal.jnum 6), ("relevance", JVal.jnum 9),
               ("reasoning", JVal.jstr "solid")]),
             ("u2", JVal.jobj
              [("clarity", JVal.jnum 5), ("logic", JVal.jnum 5),
               ("evidence", JVal.jnum 4), ("relevance", JVal.jnum 8),
               ("reasoning", JVal.jstr "brief")])]),
           ("consensusStatement", JVal.jstr "Both sides made points.")]) := by
  refine ((claim_C4 _ "judge says: \x7b\"scores\": …\x7d" scnSession).2
    _ _ rfl rfl).1.mpr ?_
  intro a ha
  fin_cases ha <;> decide

/-! ## Orchestrator (`analyzeDebate`) -/

/-- C1.  `analyzeDebate` fails exactly when the session has no
arguments (with the wrapped precondition error); on a non-empty session
a thrown judge call, or a judge reply on which `parseAIResponse` fails,
is caught and the result is the complete decision built from the
heuristic scorer's scores and consensus statement — the failure never
reaches the caller. -/
theorem claim_C1 (judge : Except String String)
    (jparse : String → Option JVal) (now : Nat) (session : DebateSession) :
    ((∃ e, analyzeDebate judge jparse now session = .error e) ↔
        session.arguments = []) ∧
    (session.arguments = [] →
      analyzeDebate judge jparse now session
        = .error "Failed to analyze debate: No arguments to analyze") ∧
    (∀ e, judge = .error e → session.arguments ≠ [] →
      analyzeDebate judge jparse now session
        = .ok { sessionId := session.id, topic := session.topic,
                results := calculateFinalScores
                  (performFallbackAnalysis session).scores,
                winner := (determineWinner (calculateFinalScores
                  (performFallbackAnalysis session).scores)).winner,
                isTie := (determineWinner (calculateFinalScores
                  (performFallbackAnalysis session).scores)).isTie,
                consensusStatement :=
                  (performFallbackAnalysis session).consensusStatement,
                processedAt := now }) ∧
    (∀ text, judge = .ok text →
      (∃ e, parseAIResponse jparse text session = .error e) →
      session.arguments ≠ [] →
      analyzeDebate judge jparse now session
        = .ok { sessionId := session.id, topic := session.topic,
                results := calculateFinalScores
                  (performFallbackAnalysis session).scores,
                winner := (determineWinner (calculateFinalScores
                  (performFallbackAnalysis session).scores)).winner,
                isTie := (determineWinner (calculateFinalScores
                  (performFallbackAnalysis session).scores)).isTie,
                consensusStatement :=
                  (performFallbackAnalysis session).consensusStatement,
                processedAt := now }) := by
  by_cases hnil : session.arguments = []
  · have hl : session.arguments.length = 0 := List.length_eq_zero.mpr hnil
    refine ⟨⟨fun _ => hnil, fun _ => ?_⟩, fun _ => ?_, ?_, ?_⟩
    · exact ⟨"Failed to analyze debate: No arguments to analyze",
        by simp [analyzeDebate, hl]⟩
    · simp [analyzeDebate, hl]
    · intro e _ hne; exact absurd hnil hne
    · intro text _ _ hne; exact absurd hnil hne
  · have hl : ¬ session.arguments.length = 0 := fun h =>
      hnil (List.length_eq_zero.mp h)
    refine ⟨⟨?_, fun h => absurd h hnil⟩, fun h => absurd h hnil, ?_, ?_⟩
    · rintro ⟨e, he⟩
      rcases judge with je | text
      · simp [analyzeDebate, hl] at he
      · rcases hp : parseAIResponse jparse text session with pe | pv
        · simp [analyzeDebate, hl, hp] at he
        · simp [analyzeDebate, hl, hp] at he
    · rintro e rfl _
      simp only [analyzeDebate, if_neg hl]
    · rintro text rfl ⟨e2, hpe⟩ _
      simp only [analyzeDebate, if_neg hl, hpe]

/-- Witness for C1: on the Scenario A session with a throwing judge
call, `analyzeDebate` succeeds with the heuristic-built decision. -/
theorem claim_C1_witness :
    analyzeDebate (.error "API down") (fun _ => none) 7 scnSession
      = .ok { sessionId := scnSession.id, topic := scnSession.topic,
              results := calculateFinalScores
                (performFallbackAnalysis scnSession).scores,
              winner := (determineWinner (calculateFinalScores
                (performFallbackAnalysis scnSession).scores)).winner,
              isTie := (determineWinner (calculateFinalScores
                (performFallbackAnalysis scnSession).scores)).isTie,
              consensusStatement :=
                (performFallbackAnalysis scnSession).consensusStatement,
              processedAt := 7 } :=
  (claim_C1 (.error "API down") (fun _ => none) 7 scnSession).2.2.1
    "API down" rfl (by decide)

/-- Witness for C2 at a concrete one-entry results mapping. -/
theorem claim_C2_witness :
    (determineWinner [("solo", ⟨"Solo", 8, 7, 4, 10, 71 / 10, "w"⟩)]).isTie
        = false ∧
    (determineWinner [("solo", ⟨"Solo", 8, 7, 4, 10, 71 / 10, "w"⟩)]).winner
        = some { userId := "solo", userName := "Solo", finalScore := 71 / 10 } :=
  (claim_C2 [("solo", ⟨"Solo", 8, 7, 4, 10, 71 / 10, "w"⟩)]).2
    "solo" ⟨"Solo", 8, 7, 4, 10, 71 / 10, "w"⟩ rfl

/-- Witness for C5 at a concrete two-entry results mapping. -/
theorem claim_C5_witness :
    ∃ top second rest,
      sortEntries [("a", ⟨"A", 8, 7, 4, 10, 71 / 10, "x"⟩),
                   ("b", ⟨"B", 6, 5, 4, 10, 6, "y"⟩)]
        = top :: second :: rest ∧
      ([("a", (⟨"A", 8, 7, 4, 10, 71 / 10, "x"⟩ : ScoredResult)),
        ("b", ⟨"B", 6, 5, 4, 10, 6, "y"⟩)]).Perm (top :: second :: rest) ∧
      List.Sorted byScoreDesc (top :: second :: rest) ∧
      (∀ e ∈ [("a", (⟨"A", 8, 7, 4, 10, 71 / 10, "x"⟩ : ScoredResult)),
              ("b", ⟨"B", 6, 5, 4, 10, 6, "y"⟩)],
        e.2.finalScore ≤ top.2.finalScore) ∧
      ((determineWinner [("a", ⟨"A", 8, 7, 4, 10, 71 / 10, "x"⟩),
                         ("b", ⟨"B", 6, 5, 4, 10, 6, "y"⟩)]).isTie
        = decide (|top.2.finalScore - second.2.finalScore| < 0.1)) ∧
      ((determineWinner [("a", ⟨"A", 8, 7, 4, 10, 71 / 10, "x"⟩),
                         ("b", ⟨"B", 6, 5, 4, 10, 6, "y"⟩)]).winner
        = if |top.2.finalScore - second.2.finalScore| < 0.1 then none
          else some { userId := top.1, userName := top.2.userName,
                      finalScore := top.2.finalScore }) :=
  claim_C5 [("a", ⟨"A", 8, 7, 4, 10, 71 / 10, "x"⟩),
            ("b", ⟨"B", 6, 5, 4, 10, 6, "y"⟩)] (by norm_num)

/-- Witness for C10 on a session where one participant argues twice: the
recorded score is the second (later) argument's score. -/
theorem claim_C10_witness :
    lookupKey "u9"
        (performFallbackAnalysis
          ⟨"sd", "space", [⟨"d1", "u9", "Eve", "space", "first point", 1⟩,
                           ⟨"d2", "u9", "Eve", "space", "", 2⟩], 0, none⟩).scores
      = some (scoreArgument "space" ⟨"d2", "u9", "Eve", "space", "", 2⟩) := by
  rw [claim_C10]
  rfl

end DebateRef
